import Mathlib

/-!
Verification of the `context_logger` package (`src/context_logger/__init__.py`)
against its natural-language specification.

The embedding is shallow. Python lists of counters become `List Nat`; the
operations that can raise (`self.nlist[-1] += 1` and `del self.nlist[-1]` on an
empty list, attribute access on a value without the attribute) return
`Except PyError`. Python message values (the `message` argument of
`Logger.log` may be any object) become the inductive `PyVal`. Strings are
inspected at character-list level, matching the one-character sigil operations
`startswith(":")`, `endswith(":")`, `message[1:]` and `message[:-1]` of the
source. The sink (`log_function`) is modelled by recording the argument
triples it is invoked with; the indent strategy and the sink are stateless
collaborators, so recording the calls is a complete account of the observable
behaviour of `Logger.log`.
-/

set_option autoImplicit false

/-- Errors the embedded Python code can raise. -/
inductive PyError where
  /-- `AttributeError`: attribute lookup failed on a value (field names the attribute). -/
  | attributeError (attr : String)
  /-- `IndexError`: indexing `[-1]` (or `del ...[-1]`) on an empty list. -/
  | indexError
deriving DecidableEq, Repr

/-- Python values that may appear as the `message` argument of `Logger.log`
(the decorator allows an arbitrary constant `message_or_func`). -/
inductive PyVal where
  | str (s : String)
  | int (n : Int)
  | boolV (b : Bool)
  | noneV
deriving DecidableEq, Repr

/-- Python truthiness of a value, as used by `if message` (line 108):
a string is truthy iff non-empty. -/
def pyTruthy : PyVal → Bool
  | .str s => !s.data.isEmpty
  | .int n => n != 0
  | .boolV b => b
  | .noneV => false

/-- `message.startswith(":")` (line 100) for the one-character sigil: attribute
access on a non-`str` value raises `AttributeError` (the check is unguarded in
the source). -/
def pyStartswith (v : PyVal) (c : Char) : Except PyError Bool :=
  match v with
  | .str s =>
    match s.data with
    | [] => .ok false
    | c2 :: _ => .ok (c2 == c)
  | _ => .error (.attributeError "startswith")

/-- `isinstance(message, str) and message.endswith(":")` (line 104): the
trailing-sigil check is guarded by the `isinstance` test, so on a non-`str`
value it evaluates to `False` instead of raising. -/
def pyEndswithGuarded (v : PyVal) (c : Char) : Bool :=
  match v with
  | .str s => s.data.getLast? == some c
  | _ => false

/-- `message[1:]` (line 102); only ever evaluated on a `str`, because the
leading-sigil branch is reached only after `startswith` succeeded. -/
def pyDropFirst : PyVal → PyVal
  | .str s => .str ⟨s.data.drop 1⟩
  | v => v

/-- `message[:-1]` (line 106); only ever evaluated on a `str`, because
`end_indent` is `True` only for a `str`. -/
def pyDropLastChar : PyVal → PyVal
  | .str s => .str ⟨s.data.dropLast⟩
  | v => v

/-- `self.nlist[-1] += 1` (line 99): raises `IndexError` on an empty list. -/
def incrLast (ns : List Nat) : Except PyError (List Nat) :=
  match ns.getLast? with
  | Option.none => .error .indexError
  | some v => .ok (ns.dropLast ++ [v + 1])

/-- `Logger.deindent` (lines 95-96): `del self.nlist[-1]`, which raises
`IndexError` only when the list is already empty. -/
def deindent (ns : List Nat) : Except PyError (List Nat) :=
  if ns.isEmpty then .error .indexError else .ok ns.dropLast

/-- `Logger.indent` (lines 92-93): `self.nlist.append(0)`. -/
def indent (ns : List Nat) : List Nat := ns ++ [0]

/-- One invocation of the sink: the arguments `Logger.log` passes to
`self.log_function(message, self.prefix, self.nlist, self.indent_type)`
(line 109). The indent strategy is the fixed `indent_type` field of the
logger and is passed along unchanged, so it is not recorded here. -/
structure SinkCall where
  message : PyVal
  label : String
  nlist : List Nat
deriving DecidableEq, Repr

/-- Everything observable about one `Logger.log` call that succeeded:
the depth stack of the logger after the call (`self.nlist` was mutated in
place), the sink invocations it made (zero or one), and the depth stack of
the fresh `Logger` returned by `self.copy()` (line 117: `self.nlist + [0]`,
a fresh list). -/
structure LogResult where
  nlist : List Nat
  sinkCalls : List SinkCall
  copyNlist : List Nat
deriving DecidableEq, Repr

namespace Logger

/-- The tail of `Logger.log` after the leading-sigil handling: the
trailing-sigil check and strip (lines 104-106), the suppression test and sink
invocation (lines 108-109), the deferred `indent` (lines 111-112) and the
`copy` of line 114/117. None of these steps can raise, so the tail is a total
function of the depth stack reached after lines 99-102 and of the (possibly
already stripped) message. -/
def logTail (nl : List Nat) (message : PyVal) (label : String) : LogResult :=
  let endIndent := pyEndswithGuarded message ':'
  let message := if endIndent then pyDropLastChar message else message
  let calls : List SinkCall :=
    if pyTruthy message = true ∧ message ≠ PyVal.str " " then
      [⟨message, label, nl⟩]
    else []
  let nl := if endIndent then indent nl else nl
  ⟨nl, calls, nl ++ [0]⟩

/-- `Logger.log` (lines 98-114) over an arbitrary Python message value.
The `label` parameter embeds `self.prefix` (a Lean keyword, hence renamed). -/
def log (nl : List Nat) (message : PyVal) (label : String) :
    Except PyError LogResult := do
  let nl ← incrLast nl
  let sw ← pyStartswith message ':'
  let (nl, message) ←
    if sw then do
      let nl2 ← deindent nl
      pure (nl2, pyDropFirst message)
    else
      pure (nl, message)
  pure (logTail nl message label)

/-- `Logger.log` specialised to a `str` message (the intended use). -/
def logStr (nl : List Nat) (message : String) (label : String) :
    Except PyError LogResult :=
  log nl (.str message) label

/-- Repeated `log` calls on one and the same logger (the depth stack is
mutated in place, so each call continues from the stack the previous call
left behind); collects all sink invocations in order. -/
def logSeq (nl : List Nat) (msgs : List String) (label : String) :
    Except PyError (List Nat × List SinkCall) :=
  match msgs with
  | [] => .ok (nl, [])
  | m :: rest => do
    let r ← logStr nl m label
    let (nlFin, calls) ← logSeq r.nlist rest label
    pure (nlFin, r.sinkCalls ++ calls)

end Logger

/-! ### Indent strategies (lines 54-69)

Each strategy is the `__call__` method of the corresponding class, a pure
function from the depth stack to the rendered prefix string. -/

/-- `NoneIndent.__call__` (lines 54-56): always the empty string. -/
def NoneIndent (nlist : List Nat) : String := ""

/-- `SpaceIndent.__call__` (lines 59-64): `self.char * (len(nlist) - 1)`.
The constructor argument `char` (default `" "`) becomes an explicit
parameter; Python string repetition with a non-positive count yields `""`,
matched here by truncated `Nat` subtraction. -/
def SpaceIndent (char : String) (nlist : List Nat) : String :=
  String.join (List.replicate (nlist.length - 1) char)

/-- `NumberedIndent.__call__` (lines 67-69):
`"".join([f"{number}. " for number in nlist])`. -/
def NumberedIndent (nlist : List Nat) : String :=
  String.join (nlist.map (fun n => toString n ++ ". "))

/-! ### Heap model for `Logger.copy` (lines 116-117)

Whether the stack of the returned logger aliases the stack of the original is
a statement about Python object identity, so `copy` is additionally embedded
against an explicit heap of list objects: an address is an index into the
heap, a logger holds the address of its `nlist`, and `self.nlist + [0]`
evaluates to a fresh object at a fresh address. -/

/-- A heap of Python `list[int]` objects; the address of an object is its
index in `lists`. -/
structure Store where
  lists : List (List Nat)
deriving DecidableEq, Repr

/-- A `Logger` as a record of references: `log_function` and `indent_type`
are opaque shared collaborators (identified by `sinkId` and `indentId`), and
`nlistAddr` is the heap address of the `self.nlist` object. -/
structure LoggerRef where
  label : String
  indentId : Nat
  sinkId : Nat
  nlistAddr : Nat
deriving DecidableEq, Repr

/-- Heap read: the list object stored at `addr`. -/
def Store.listAt (st : Store) (addr : Nat) : List Nat :=
  st.lists.getD addr []

/-- Heap write: replace frame `i` of the list object at `addr` by `v` (the
shape of every in-place mutation `Logger.log` performs on a stack, e.g.
`self.nlist[-1] += 1`). -/
def Store.setFrame (st : Store) (addr i v : Nat) : Store :=
  ⟨st.lists.set addr ((st.lists.getD addr []).set i v)⟩

/-- `Logger.copy` (lines 116-117) on the heap:
`Logger(self.prefix, self.log_function, nlist=self.nlist + [0],
indent=self.indent_type)`. The expression `self.nlist + [0]` is Python list
concatenation, which evaluates to a fresh list object; it is allocated at the
next free address and the new logger references it, while `prefix`,
`log_function` and `indent_type` are passed through unchanged. -/
def Logger.copyRef (st : Store) (lg : LoggerRef) : Store × LoggerRef :=
  (⟨st.lists ++ [st.listAt lg.nlistAddr ++ [0]]⟩,
   ⟨lg.label, lg.indentId, lg.sinkId, st.lists.length⟩)

/-! ### Scoped acquisition (lines 119-126) -/

/-- A logger as seen by the ambient-context protocol: its label and the value
of its depth stack. -/
structure LoggerV where
  label : String
  nlist : List Nat
deriving DecidableEq, Repr

/-- Observable outcome of `with child: <body>`: the propagated result of the
body, the ambient logger after the block, and the depth stack of `child`
after the block. -/
structure WithOutcome (E A : Type) where
  result : Except E A
  ambientAfter : LoggerV
  selfNlistAfter : List Nat

/-- Embeds the `with log(message_): return decorated_func(...)` block of the
decorator wrappers (lines 25-26 and 36-37). `__enter__` (lines 119-122) saves
the ambient logger into `self.prev_logger` and installs `self`; the body then
runs with outcome `r` (normal value or raised exception) and may leave the
ambient cell at any value `ambientAfterBody` (balanced nested scopes restore
it, but `__exit__` does not depend on that). `__exit__` (lines 124-126) pops
one frame off `self.nlist` via `deindent` and then unconditionally overwrites
the ambient cell with the saved `prev_logger`; it returns `None` (falsy), so
an exceptional `r` propagates unchanged. The only failure of the block itself
is the `IndexError` of `deindent` on an empty stack, which Python would let
replace the outcome of the body. -/
def withLogger {E A : Type} (ambientBefore child : LoggerV) (r : Except E A)
    (ambientAfterBody : LoggerV) : Except PyError (WithOutcome E A) := do
  let prev := ambientBefore
  let nl ← deindent child.nlist
  pure ⟨r, prev, nl⟩

/-! ### The decorator argument binding (lines 15-41)

Python dicts (3.7+) are ordered key/value maps: inserting an existing key
overwrites its value in place, a new key is appended. They are embedded as
association lists in which every operation maintains at most one entry per
key. -/

/-- First-match lookup in an embedded dict. -/
def dictLookup {V : Type} (d : List (String × V)) (k : String) : Option V :=
  match d with
  | [] => Option.none
  | p :: rest => if p.1 = k then some p.2 else dictLookup rest k

/-- Dict insertion `d[k] = v`: an existing key keeps its position and receives
the new value, a new key is appended at the end. -/
def dictInsert {V : Type} (d : List (String × V)) (k : String) (v : V) :
    List (String × V) :=
  if d.any (fun p => p.1 == k) then
    d.map (fun p => if p.1 = k then (k, v) else p)
  else d ++ [(k, v)]

/-- The dict comprehension `{key: value for key, value in zip(func_args, args)}`
(lines 20 and 31): pairs are inserted left to right. -/
def dictOfPairs {V : Type} (ps : List (String × V)) : List (String × V) :=
  ps.foldl (fun d p => dictInsert d p.1 p.2) []

/-- Python dict union `d1 | d2` (lines 20 and 31): a copy of `d1` updated with
the entries of `d2`, so a key present in both gets the value from `d2`. -/
def dictUnion {V : Type} (d1 d2 : List (String × V)) : List (String × V) :=
  d2.foldl (fun d p => dictInsert d p.1 p.2) d1

/-- `assigned_args = {key: value for key, value in zip(func_args, args)} | kwargs`
(lines 20 and 31): `func_args` is `inspect.getfullargspec(decorated_func)[0]`,
the declared positional parameter names of the wrapped function in order. -/
def assignedArgs {V : Type} (funcArgs : List String) (args : List V)
    (kwargs : List (String × V)) : List (String × V) :=
  dictUnion (dictOfPairs (funcArgs.zip args)) kwargs

/-- The `message_or_func` argument of `log_decorator`: either a constant
message value or a function of the bound-argument mapping. The source
distinguishes the two with `isinstance(message_or_func, Callable)`
(lines 18 and 29). -/
inductive MessageSpec (V M : Type) where
  | const (m : M)
  | func (f : List (String × V) → M)

/-- The message computation of both wrapper bodies (lines 18-24 and 29-35): a
callable spec is applied to `assigned_args`; a constant spec is used as the
message as-is, and in that branch `assigned_args` is never built. -/
def computeMessage {V M : Type} (spec : MessageSpec V M) (funcArgs : List String)
    (args : List V) (kwargs : List (String × V)) : M :=
  match spec with
  | .func f => f (assignedArgs funcArgs args kwargs)
  | .const m => m

example : Logger.logStr [0] "hello" "GLOBAL" =
    .ok ⟨[1], [⟨.str "hello", "GLOBAL", [1]⟩], [1, 0]⟩ := rfl

example : Logger.logStr [0, 2] ":back" "GLOBAL" =
    .ok ⟨[0], [⟨.str "back", "GLOBAL", [0]⟩], [0, 0]⟩ := rfl

example : Logger.logStr [3] "open:" "GLOBAL" =
    .ok ⟨[4, 0], [⟨.str "open", "GLOBAL", [4]⟩], [4, 0, 0]⟩ := rfl

example : Logger.logStr [5] ":" "GLOBAL" = .ok ⟨[], [], [0]⟩ := rfl

example : Logger.log [0] (.int 3) "GLOBAL" =
    .error (.attributeError "startswith") := rfl


/-! ### Helper lemmas -/

theorem exceptBind_ok {ε α β : Type} (a : α) (f : α → Except ε β) :
    (Except.ok a : Except ε α) >>= f = f a := rfl

theorem exceptBind_error {ε α β : Type} (e : ε) (f : α → Except ε β) :
    (Except.error e : Except ε α) >>= f = Except.error e := rfl

theorem incrLast_concat (front : List Nat) (x : Nat) :
    incrLast (front ++ [x]) = .ok (front ++ [x + 1]) := by
  simp [incrLast]

theorem deindent_concat (front : List Nat) (x : Nat) :
    deindent (front ++ [x]) = .ok front := by
  simp [deindent]

theorem pyStartswith_mk (cs : List Char) :
    pyStartswith (.str ⟨cs⟩) ':' = .ok (cs.head? == some ':') := by
  cases cs <;> simp [pyStartswith]

theorem str_mk_ne_space (cs : List Char) (h : cs ≠ [' ']) :
    (⟨cs⟩ : String) ≠ " " :=
  fun hc => h (congrArg String.data hc)

theorem logStr_lead (front : List Nat) (x : Nat) (cs : List Char) (label : String) :
    Logger.logStr (front ++ [x]) ⟨':' :: cs⟩ label =
      .ok (Logger.logTail front (.str ⟨cs⟩) label) := by
  unfold Logger.logStr Logger.log
  rw [incrLast_concat]
  simp [exceptBind_ok, pyStartswith, deindent_concat, pyDropFirst]

theorem logStr_no_lead (front : List Nat) (x : Nat) (cs : List Char) (label : String)
    (h1 : cs.head? ≠ some ':') :
    Logger.logStr (front ++ [x]) ⟨cs⟩ label =
      .ok (Logger.logTail (front ++ [x + 1]) (.str ⟨cs⟩) label) := by
  unfold Logger.logStr Logger.log
  rw [incrLast_concat]
  simp [exceptBind_ok, pyStartswith_mk, h1]

theorem logTail_plain (nl : List Nat) (cs : List Char) (label : String)
    (h2 : cs.getLast? ≠ some ':') (hne : cs ≠ []) (hsp : cs ≠ [' ']) :
    Logger.logTail nl (.str ⟨cs⟩) label = ⟨nl, [⟨.str ⟨cs⟩, label, nl⟩], nl ++ [0]⟩ := by
  simp [Logger.logTail, pyEndswithGuarded, pyTruthy, h2, hne, str_mk_ne_space cs hsp]

theorem logTail_suppressed (nl : List Nat) (cs : List Char) (label : String)
    (h2 : cs.getLast? ≠ some ':') (h : cs = [] ∨ cs = [' ']) :
    Logger.logTail nl (.str ⟨cs⟩) label = ⟨nl, [], nl ++ [0]⟩ := by
  rcases h with h | h <;> subst h <;>
    simp [Logger.logTail, pyEndswithGuarded, pyTruthy, h2]

theorem logTail_trailing (nl : List Nat) (cs : List Char) (label : String)
    (hne : cs ≠ []) (hsp : cs ≠ [' ']) :
    Logger.logTail nl (.str ⟨cs ++ [':']⟩) label =
      ⟨nl ++ [0], [⟨.str ⟨cs⟩, label, nl⟩], nl ++ [0, 0]⟩ := by
  simp [Logger.logTail, pyEndswithGuarded, pyDropLastChar, pyTruthy, indent,
    hne, str_mk_ne_space cs hsp]

theorem logStr_no_sigil_stack (front : List Nat) (x : Nat) (m : String) (label : String)
    (h1 : m.data.head? ≠ some ':') (h2 : m.data.getLast? ≠ some ':') :
    ∃ calls, Logger.logStr (front ++ [x]) m label =
      .ok ⟨front ++ [x + 1], calls, front ++ [x + 1, 0]⟩ := by
  obtain ⟨cs⟩ := m
  rw [logStr_no_lead front x cs label h1]
  by_cases hd : cs = [] ∨ cs = [' ']
  · refine ⟨[], ?_⟩
    rw [logTail_suppressed _ _ _ h2 hd]
    simp
  · push_neg at hd
    refine ⟨[⟨.str ⟨cs⟩, label, front ++ [x + 1]⟩], ?_⟩
    rw [logTail_plain _ _ _ h2 hd.1 hd.2]
    simp

theorem dictLookup_append {V : Type} (d1 d2 : List (String × V)) (k : String) :
    dictLookup (d1 ++ d2) k =
      match dictLookup d1 k with
      | some v => some v
      | Option.none => dictLookup d2 k := by
  induction d1 with
  | nil => simp [dictLookup]
  | cons p rest ih =>
    by_cases hp : p.1 = k <;> simp [dictLookup, hp, ih]

theorem dictLookup_eq_none_of_not_mem {V : Type} (d : List (String × V)) (k : String)
    (h : d.any (fun p => p.1 == k) = false) : dictLookup d k = Option.none := by
  induction d with
  | nil => rfl
  | cons p rest ih =>
    simp only [List.any_cons, Bool.or_eq_false_iff, beq_eq_false_iff_ne] at h
    simp [dictLookup, h.1, ih h.2]

theorem dictLookup_replace {V : Type} (d : List (String × V)) (k : String) (v : V)
    (k2 : String) :
    dictLookup (d.map (fun p => if p.1 = k then (k, v) else p)) k2 =
      if k2 = k then
        (if d.any (fun p => p.1 == k) then some v else Option.none)
      else dictLookup d k2 := by
  induction d with
  | nil => by_cases h : k2 = k <;> simp [dictLookup, h]
  | cons p rest ih =>
    by_cases hp : p.1 = k
    · by_cases hk : k2 = k
      · subst hk
        simp [dictLookup, hp, ih]
      · simp [dictLookup, hp, hk, Ne.symm hk, ih]
    · by_cases hk : k2 = k
      · subst hk
        have hb : (p.1 == k2) = false := by simp [hp]
        simp [dictLookup, hp, ih]
        rw [hb, Bool.false_or]
      · by_cases hpk2 : p.1 = k2 <;> simp [dictLookup, hp, hk, hpk2, ih]

theorem dictLookup_insert {V : Type} (d : List (String × V)) (k : String) (v : V)
    (k2 : String) :
    dictLookup (dictInsert d k v) k2 = if k2 = k then some v else dictLookup d k2 := by
  unfold dictInsert
  by_cases hany : d.any (fun p => p.1 == k) = true
  · rw [if_pos hany, dictLookup_replace, hany]
    simp
  · rw [if_neg hany, dictLookup_append]
    rw [Bool.not_eq_true] at hany
    by_cases hk : k2 = k
    · subst hk
      rw [dictLookup_eq_none_of_not_mem d k2 hany]
      simp [dictLookup]
    · cases hd : dictLookup d k2 <;> simp [dictLookup, Ne.symm hk, hk, hd]

theorem dictUnion_cons {V : Type} (d : List (String × V)) (p : String × V)
    (rest : List (String × V)) :
    dictUnion d (p :: rest) = dictUnion (dictInsert d p.1 p.2) rest := rfl

theorem dictLookup_union_not_mem {V : Type} (ps : List (String × V)) :
    ∀ (d : List (String × V)) (k : String), k ∉ ps.map Prod.fst →
      dictLookup (dictUnion d ps) k = dictLookup d k := by
  induction ps with
  | nil => intro d k _; rfl
  | cons p rest ih =>
    intro d k hk
    simp only [List.map_cons, List.mem_cons, not_or] at hk
    rw [dictUnion_cons, ih _ k hk.2, dictLookup_insert, if_neg hk.1]

theorem dictLookup_union_mem {V : Type} (ps : List (String × V)) :
    ∀ (d : List (String × V)) (k : String) (v : V), (ps.map Prod.fst).Nodup →
      (k, v) ∈ ps → dictLookup (dictUnion d ps) k = some v := by
  induction ps with
  | nil => intro d k v _ hmem; cases hmem
  | cons p rest ih =>
    intro d k v hnd hmem
    simp only [List.map_cons, List.nodup_cons] at hnd
    rcases List.mem_cons.mp hmem with heq | hmem2
    · subst heq
      rw [dictUnion_cons, dictLookup_union_not_mem rest _ k hnd.1,
        dictLookup_insert, if_pos rfl]
    · exact dictUnion_cons d p rest ▸ ih _ k v hnd.2 hmem2

/-! ### Claims -/

/-- C9: the three indent strategies: `NumberedIndent` on `[1, 2, 3]` renders
`"1. 2. 3. "`, `SpaceIndent("-")` on `[0, 1]` renders `"-"` (the character
repeated `len(depthStack) - 1` times), and `NoneIndent` renders `""` on every
depth stack. -/
theorem indent_strategy_values :
    NumberedIndent [1, 2, 3] = "1. 2. 3. " ∧
    SpaceIndent "-" [0, 1] = "-" ∧
    ∀ nlist : List Nat, NoneIndent nlist = "" :=
  ⟨rfl, rfl, fun _ => rfl⟩

/-- C7: a message equal to `""` or `" "` increments the counter of its level
but invokes the sink zero times, and the message `":"` performs its depth
shift (pop) and is suppressed without error. -/
theorem log_suppresses_empty_and_space (front : List Nat) (x : Nat) (label : String) :
    Logger.logStr (front ++ [x]) "" label =
      .ok ⟨front ++ [x + 1], [], front ++ [x + 1, 0]⟩ ∧
    Logger.logStr (front ++ [x]) " " label =
      .ok ⟨front ++ [x + 1], [], front ++ [x + 1, 0]⟩ ∧
    Logger.logStr (front ++ [x]) ":" label = .ok ⟨front, [], front ++ [0]⟩ := by
  refine ⟨?_, ?_, ?_⟩
  · show Logger.logStr (front ++ [x]) ⟨([] : List Char)⟩ label = _
    rw [logStr_no_lead front x [] label (by decide),
      logTail_suppressed _ _ _ (by decide) (Or.inl rfl)]
    simp
  · show Logger.logStr (front ++ [x]) ⟨[' ']⟩ label = _
    rw [logStr_no_lead front x [' '] label (by decide),
      logTail_suppressed _ _ _ (by decide) (Or.inr rfl)]
    simp
  · show Logger.logStr (front ++ [x]) ⟨[':']⟩ label = _
    rw [logStr_lead front x [] label,
      logTail_suppressed _ _ _ (by decide) (Or.inl rfl)]

/-- C3 counterexample: `deindent` on the root stack `[0]` (which the claim
says must fail fast because the stack would become empty) instead succeeds
and returns the empty stack, violating the length ≥ 1 invariant. -/
theorem deindent_root_succeeds_counterexample :
    deindent [0] = Except.ok [] ∧ ¬ 1 ≤ ([] : List Nat).length :=
  ⟨rfl, by decide⟩

/-- C3 amended: `deindent` removes the last element without any guard: on a
non-empty stack it always succeeds and returns the stack minus its last
frame (so a stack of length 1 silently becomes empty, breaking the length ≥ 1
invariant), and only a deindent of an already-empty stack raises, with a
plain `IndexError` rather than a distinct scope-underflow error. -/
theorem deindent_unguarded_pop (ns : List Nat) :
    (ns = [] → deindent ns = Except.error PyError.indexError) ∧
    (ns ≠ [] → deindent ns = Except.ok ns.dropLast ∧
      ns.dropLast.length + 1 = ns.length) := by
  constructor
  · intro h; subst h; rfl
  · intro h
    refine ⟨by simp [deindent, h], ?_⟩
    rw [List.length_dropLast]
    have := List.length_pos.mpr h
    omega

/-- C3 witness: the amended theorem applied to the root stack `[0]`. -/
theorem deindent_unguarded_pop_witness :
    deindent [0] = Except.ok [] ∧ [0].dropLast.length + 1 = [0].length :=
  (deindent_unguarded_pop [0]).2 (by decide)

/-- C10: `Logger.log` on a non-`str` message increments the counter and then
raises `AttributeError` at the unguarded `message.startswith(":")` check,
while the `isinstance`-guarded trailing-sigil check evaluates to `False` on
the same value instead of raising. -/
theorem log_raises_on_nonstring_message (nl : List Nat) (v : PyVal) (label : String)
    (hnl : nl ≠ []) (hv : ∀ s : String, v ≠ .str s) :
    Logger.log nl v label = .error (.attributeError "startswith") ∧
    pyEndswithGuarded v ':' = false := by
  rcases List.eq_nil_or_concat nl with h | ⟨front, x, rfl⟩
  · exact absurd h hnl
  rw [List.concat_eq_append]
  constructor
  · unfold Logger.log
    rw [incrLast_concat]
    simp only [exceptBind_ok]
    cases v with
    | str s => exact absurd rfl (hv s)
    | int n => rfl
    | boolV b => rfl
    | noneV => rfl
  · cases v with
    | str s => exact absurd rfl (hv s)
    | int n => rfl
    | boolV b => rfl
    | noneV => rfl

/-- C10 witness: the theorem applied to the constant message `3` on the root
stack. -/
theorem log_raises_on_nonstring_message_witness :
    Logger.log [0] (PyVal.int 3) "GLOBAL" =
      .error (.attributeError "startswith") ∧
    pyEndswithGuarded (PyVal.int 3) ':' = false :=
  log_raises_on_nonstring_message [0] (.int 3) "GLOBAL" (by decide)
    (fun _ h => PyVal.noConfusion h)

/-- C5: the scoped acquisition `with child: <body>` always ends with the
ambient logger restored to the logger that was ambient before entry, pops
exactly one frame off the entered logger, and propagates the outcome of the
body (normal value or raised exception) unchanged. -/
theorem withLogger_exception_safe {E A : Type} (ambientBefore child : LoggerV)
    (r : Except E A) (ambientAfterBody : LoggerV) (h : child.nlist ≠ []) :
    withLogger ambientBefore child r ambientAfterBody =
      .ok ⟨r, ambientBefore, child.nlist.dropLast⟩ ∧
    child.nlist.dropLast.length + 1 = child.nlist.length := by
  constructor
  · have hd : deindent child.nlist = .ok child.nlist.dropLast := by
      simp [deindent, h]
    unfold withLogger
    rw [hd]
    rfl
  · rw [List.length_dropLast]
    have := List.length_pos.mpr h
    omega

/-- C5 witness: a raising body (`Except.error "boom"`) inside a scope entered
on the child logger; the error propagates and the ambient logger is restored. -/
theorem withLogger_exception_safe_witness :
    withLogger ⟨"GLOBAL", [1]⟩ ⟨"child", [1, 0]⟩
        (Except.error "boom" : Except String Nat) ⟨"other", [9]⟩ =
      Except.ok ⟨Except.error "boom", ⟨"GLOBAL", [1]⟩, [1]⟩ :=
  (withLogger_exception_safe ⟨"GLOBAL", [1]⟩ ⟨"child", [1, 0]⟩
    (Except.error "boom" : Except String Nat) ⟨"other", [9]⟩ (by decide)).1

/-- C1: a message with a leading `":"` sigil first has the last counter
incremented, then one frame popped — so the incremented counter is discarded
permanently and the rest of the call proceeds against the parent stack
`front`, whose counters are unchanged (the result does not depend on the
popped counter `x` at all); when the stripped remainder is renderable it is
emitted against the parent stack. -/
theorem log_leading_sigil_attributes_to_parent (front : List Nat) (x : Nat)
    (cs : List Char) (label : String) :
    Logger.logStr (front ++ [x]) ⟨':' :: cs⟩ label =
      .ok (Logger.logTail front (.str ⟨cs⟩) label) ∧
    (cs ≠ [] → cs.getLast? ≠ some ':' → cs ≠ [' '] →
      Logger.logStr (front ++ [x]) ⟨':' :: cs⟩ label =
        .ok ⟨front, [⟨.str ⟨cs⟩, label, front⟩], front ++ [0]⟩) := by
  refine ⟨logStr_lead front x cs label, fun hne hlast hsp => ?_⟩
  rw [logStr_lead front x cs label, logTail_plain front cs label hlast hne hsp]

/-- C1 witness: logging `":a"` on stack `[2, 5]` renders `"a"` against the
parent stack `[2]` and discards the incremented counter 6. -/
theorem log_leading_sigil_attributes_to_parent_witness :
    Logger.logStr [2, 5] ⟨[':', 'a']⟩ "GLOBAL" =
      .ok ⟨[2], [⟨.str ⟨['a']⟩, "GLOBAL", [2]⟩], [2, 0]⟩ :=
  (log_leading_sigil_attributes_to_parent [2] 5 ['a'] "GLOBAL").2
    (by decide) (by decide) (by decide)

/-- C2: a message ending with the `":"` sigil has the sigil stripped, is
rendered at the current level (stack `front ++ [x + 1]`), and a zero frame is
then appended; the next `log` call on the same logger therefore renders with
its last counter equal to 1, whatever the parent counter `x` was. -/
theorem log_trailing_sigil_opens_child_scope (front : List Nat) (x : Nat)
    (cs : List Char) (label : String) (hhead : cs.head? ≠ some ':')
    (hne : cs ≠ []) (hsp : cs ≠ [' ']) :
    Logger.logStr (front ++ [x]) ⟨cs ++ [':']⟩ label =
      .ok ⟨front ++ [x + 1, 0], [⟨.str ⟨cs⟩, label, front ++ [x + 1]⟩],
        front ++ [x + 1, 0, 0]⟩ ∧
    (∀ cs2 : List Char, cs2.head? ≠ some ':' → cs2.getLast? ≠ some ':' →
      cs2 ≠ [] → cs2 ≠ [' '] →
      Logger.logStr (front ++ [x + 1, 0]) ⟨cs2⟩ label =
        .ok ⟨front ++ [x + 1, 1], [⟨.str ⟨cs2⟩, label, front ++ [x + 1, 1]⟩],
          front ++ [x + 1, 1, 0]⟩) := by
  constructor
  · have hhead2 : (cs ++ [':']).head? ≠ some ':' := by
      cases cs with
      | nil => exact absurd rfl hne
      | cons c rest => simpa using hhead
    rw [logStr_no_lead front x (cs ++ [':']) label hhead2,
      logTail_trailing (front ++ [x + 1]) cs label hne hsp]
    simp
  · intro cs2 hh2 hl2 hne2 hsp2
    have heq : front ++ [x + 1, 0] = (front ++ [x + 1]) ++ [0] := by simp
    rw [heq, logStr_no_lead (front ++ [x + 1]) 0 cs2 label hh2,
      logTail_plain ((front ++ [x + 1]) ++ [0 + 1]) cs2 label hl2 hne2 hsp2]
    simp

/-- C2 witness: logging `"a:"` on stack `[7, 1]` renders at `[7, 2]` and opens
a child frame; the next plain message `"b"` renders with last counter 1. -/
theorem log_trailing_sigil_opens_child_scope_witness :
    Logger.logStr [7, 1] ⟨['a', ':']⟩ "G" =
      .ok ⟨[7, 2, 0], [⟨.str ⟨['a']⟩, "G", [7, 2]⟩], [7, 2, 0, 0]⟩ ∧
    Logger.logStr [7, 2, 0] ⟨['b']⟩ "G" =
      .ok ⟨[7, 2, 1], [⟨.str ⟨['b']⟩, "G", [7, 2, 1]⟩], [7, 2, 1, 0]⟩ :=
  ⟨(log_trailing_sigil_opens_child_scope [7] 1 ['a'] "G" (by decide) (by decide)
      (by decide)).1,
   (log_trailing_sigil_opens_child_scope [7] 1 ['a'] "G" (by decide) (by decide)
      (by decide)).2 ['b'] (by decide) (by decide) (by decide) (by decide)⟩

/-- C4 counterexample: on the heap `[[3]]` with the logger referencing the
list at address 0, `copy` returns a logger whose stack lives at a different
address (1, not 0), and after mutating frame 0 of the original stack to 7 the
copy still reads `[3, 0]` — so the stack is a fresh object, not shared by
reference, and ancestor-frame mutations are not visible through the copy. -/
theorem copy_stack_not_aliased_counterexample :
    (Logger.copyRef ⟨[[3]]⟩ ⟨"GLOBAL", 0, 0, 0⟩).2.nlistAddr ≠
      (⟨"GLOBAL", 0, 0, 0⟩ : LoggerRef).nlistAddr ∧
    ((Logger.copyRef ⟨[[3]]⟩ ⟨"GLOBAL", 0, 0, 0⟩).1.setFrame 0 0 7).listAt 0 = [7] ∧
    ((Logger.copyRef ⟨[[3]]⟩ ⟨"GLOBAL", 0, 0, 0⟩).1.setFrame 0 0 7).listAt
      (Logger.copyRef ⟨[[3]]⟩ ⟨"GLOBAL", 0, 0, 0⟩).2.nlistAddr = [3, 0] := by
  decide

/-- C4 amended: `copy` yields a new logger with the same label, indent
strategy and sink whose depth stack is a fresh list equal to the current
stack extended by one zero frame; the fresh list is a distinct object (new
address), so subsequent mutations of the original stack — ancestor frames
included — are not visible through the copy. -/
theorem copy_allocates_fresh_stack (st : Store) (lg : LoggerRef)
    (h : lg.nlistAddr < st.lists.length) :
    (Logger.copyRef st lg).2.label = lg.label ∧
    (Logger.copyRef st lg).2.indentId = lg.indentId ∧
    (Logger.copyRef st lg).2.sinkId = lg.sinkId ∧
    (Logger.copyRef st lg).2.nlistAddr ≠ lg.nlistAddr ∧
    (Logger.copyRef st lg).1.listAt (Logger.copyRef st lg).2.nlistAddr =
      st.listAt lg.nlistAddr ++ [0] ∧
    ∀ i v : Nat, ((Logger.copyRef st lg).1.setFrame lg.nlistAddr i v).listAt
        (Logger.copyRef st lg).2.nlistAddr = st.listAt lg.nlistAddr ++ [0] := by
  refine ⟨rfl, rfl, rfl, ne_of_gt h, ?_, ?_⟩
  · show (⟨st.lists ++ [st.listAt lg.nlistAddr ++ [0]]⟩ : Store).listAt
      st.lists.length = st.listAt lg.nlistAddr ++ [0]
    simp [Store.listAt, List.getD_append_right]
  · intro i v
    show ((⟨st.lists ++ [st.listAt lg.nlistAddr ++ [0]]⟩ : Store).setFrame
        lg.nlistAddr i v).listAt st.lists.length = st.listAt lg.nlistAddr ++ [0]
    unfold Store.setFrame Store.listAt
    rw [List.getD_eq_getElem?_getD, List.getElem?_set_ne (Nat.ne_of_lt h),
      List.getElem?_concat_length]
    rfl

/-- C4 witness: the amended theorem applied to the heap `[[3]]`: the copy
lives at the fresh address, reads `[3, 0]`, and still reads `[3, 0]` after a
mutation of the original stack. -/
theorem copy_allocates_fresh_stack_witness :
    (Logger.copyRef ⟨[[3]]⟩ ⟨"G", 1, 2, 0⟩).2.nlistAddr ≠ 0 ∧
    (Logger.copyRef ⟨[[3]]⟩ ⟨"G", 1, 2, 0⟩).1.listAt
      (Logger.copyRef ⟨[[3]]⟩ ⟨"G", 1, 2, 0⟩).2.nlistAddr = [3, 0] ∧
    ((Logger.copyRef ⟨[[3]]⟩ ⟨"G", 1, 2, 0⟩).1.setFrame 0 0 7).listAt
      (Logger.copyRef ⟨[[3]]⟩ ⟨"G", 1, 2, 0⟩).2.nlistAddr = [3, 0] :=
  ⟨(copy_allocates_fresh_stack ⟨[[3]]⟩ ⟨"G", 1, 2, 0⟩ (by decide)).2.2.2.1,
   (copy_allocates_fresh_stack ⟨[[3]]⟩ ⟨"G", 1, 2, 0⟩ (by decide)).2.2.2.2.1,
   (copy_allocates_fresh_stack ⟨[[3]]⟩ ⟨"G", 1, 2, 0⟩ (by decide)).2.2.2.2.2 0 7⟩

/-- C6: over any sequence of sigil-free messages logged on the same logger,
the depth-stack length stays constant and the last counter increases by
exactly 1 per call: after the first `i` calls the stack is `front ++ [x + i]`. -/
theorem logSeq_sigil_free_invariant (label : String) :
    ∀ (msgs : List String) (i : Nat) (front : List Nat) (x : Nat),
      (∀ m ∈ msgs, m.data.head? ≠ some ':' ∧ m.data.getLast? ≠ some ':') →
      i ≤ msgs.length →
      ∃ calls, Logger.logSeq (front ++ [x]) (msgs.take i) label =
        .ok (front ++ [x + i], calls) := by
  intro msgs
  induction msgs with
  | nil =>
    intro i front x _ hi
    have hz : i = 0 := Nat.le_zero.mp hi
    subst hz
    exact ⟨[], by simp [Logger.logSeq]⟩
  | cons m rest ih =>
    intro i front x hsig hi
    cases i with
    | zero => exact ⟨[], by simp [Logger.logSeq]⟩
    | succ j =>
      have hm := hsig m (List.mem_cons_self m rest)
      obtain ⟨c1, hc1⟩ := logStr_no_sigil_stack front x m label hm.1 hm.2
      obtain ⟨c2, hc2⟩ := ih j front (x + 1)
        (fun m2 hm2 => hsig m2 (List.mem_cons_of_mem m hm2))
        (Nat.succ_le_succ_iff.mp hi)
      refine ⟨c1 ++ c2, ?_⟩
      rw [List.take_succ_cons]
      unfold Logger.logSeq
      rw [hc1]
      simp only [exceptBind_ok]
      rw [hc2]
      simp only [exceptBind_ok]
      have hx : x + 1 + j = x + (j + 1) := by omega
      rw [hx]
      rfl

/-- C6 witness: two sigil-free messages on stack `[4, 7]` leave the stack at
`[4, 9]`: length constant, last counter +1 per call. -/
theorem logSeq_sigil_free_invariant_witness :
    ∃ calls, Logger.logSeq [4, 7] ["a", "b"] "G" = .ok ([4, 9], calls) :=
  logSeq_sigil_free_invariant "G" ["a", "b"] 2 [4] 7 (by decide) (by decide)

/-- C8: the decorator pairs positional arguments with the declared parameter
names in order (`zip`) and merges keyword arguments so that a keyword
argument overrides a same-named positional binding (last-write-wins); a
non-invocable `messageSpec` is used as the message as-is. -/
theorem decorator_binds_args_kwargs_override {V M : Type}
    (funcArgs : List String) (args : List V) (kwargs : List (String × V))
    (m : M) (f : List (String × V) → M) :
    computeMessage (.const m) funcArgs args kwargs = m ∧
    computeMessage (.func f) funcArgs args kwargs =
      f (assignedArgs funcArgs args kwargs) ∧
    (∀ (k : String) (v : V), (kwargs.map Prod.fst).Nodup → (k, v) ∈ kwargs →
      dictLookup (assignedArgs funcArgs args kwargs) k = some v) ∧
    (∀ k : String, k ∉ kwargs.map Prod.fst →
      dictLookup (assignedArgs funcArgs args kwargs) k =
        dictLookup (dictOfPairs (funcArgs.zip args)) k) := by
  refine ⟨rfl, rfl, ?_, ?_⟩
  · intro k v hnd hmem
    exact dictLookup_union_mem kwargs _ k v hnd hmem
  · intro k hk
    exact dictLookup_union_not_mem kwargs _ k hk

/-- C8 witness: for `funcArgs = ["a", "b"]`, `args = [1, 2]` and
`kwargs = {"b": 5}`, the keyword value 5 overrides the positional binding of
`"b"`, while `"a"` keeps its positional binding. -/
theorem decorator_binds_args_kwargs_override_witness :
    dictLookup (assignedArgs ["a", "b"] [1, 2] [("b", 5)]) "b" = some 5 ∧
    dictLookup (assignedArgs ["a", "b"] [1, 2] [("b", 5)]) "a" =
      dictLookup (dictOfPairs (["a", "b"].zip [1, 2])) "a" :=
  ⟨(decorator_binds_args_kwargs_override ["a", "b"] [1, 2] [("b", 5)] "msg"
      (fun _ => "computed")).2.2.1 "b" 5 (by decide) (by decide),
   (decorator_binds_args_kwargs_override ["a", "b"] [1, 2] [("b", 5)] "msg"
      (fun _ => "computed")).2.2.2 "a" (by decide)⟩
